import Mathlib

/-!
Shallow embedding of the silver-layer cleansing pipeline
(`scripts/silver/load_silver_layer.py`) and proofs of the spec's claims.

Modelling conventions:
* A pandas DataFrame column is a field of a per-row structure; a record set is
  a `List` of rows (order = frame order).
* A nullable column value is an `Option`; `none` is pandas `NaN`/`NaT`/`None`.
* Numeric sales columns are modelled as `ℚ` (exact arithmetic; the pandas
  computation on these rows is float, but every claim is about exact
  equalities the source intends).
* Calendar dates are `Date` (year/month/day); `pd.Timedelta(days=1)`
  subtraction is calendar-aware `Date.pred`.
* `df.sort_values` is modelled by the stable `List.insertionSort` with the
  corresponding lexicographic comparator (pandas' quicksort fixes no tie
  order either; every theorem proved is tie-order independent).
* `pd.Timestamp.now()` is an opaque `Nat` parameter `ts`; the az12
  "today" used for the future-birth-date filter is a `Date` parameter.
-/

namespace SilverLayer

/-- A calendar date, as compared and shifted by pandas `date` objects. -/
structure Date where
  y : Int
  m : Nat
  d : Nat
deriving DecidableEq, Repr

/-- Gregorian leap-year test. -/
def isLeap (y : Int) : Bool :=
  (y % 4 == 0 && y % 100 != 0) || y % 400 == 0

/-- Number of days of month `m` in year `y`. -/
def daysInMonth (y : Int) (m : Nat) : Nat :=
  if m = 2 then (if isLeap y then 29 else 28)
  else if m = 4 ∨ m = 6 ∨ m = 9 ∨ m = 11 then 30
  else 31

/-- The calendar day before `a` (models `x - pd.Timedelta(days=1)`). -/
def Date.pred (a : Date) : Date :=
  if a.d > 1 then ⟨a.y, a.m, a.d - 1⟩
  else if a.m > 1 then ⟨a.y, a.m - 1, daysInMonth a.y (a.m - 1)⟩
  else ⟨a.y - 1, 12, 31⟩

/-- Lexicographic (year, month, day) order on dates, as Python compares
`datetime.date` objects. -/
def Date.le (a b : Date) : Prop :=
  a.y < b.y ∨ (a.y = b.y ∧ (a.m < b.m ∨ (a.m = b.m ∧ a.d ≤ b.d)))

/-- Strict version of `Date.le`. -/
def Date.lt (a b : Date) : Prop :=
  a.y < b.y ∨ (a.y = b.y ∧ (a.m < b.m ∨ (a.m = b.m ∧ a.d < b.d)))

instance (a b : Date) : Decidable (Date.le a b) := by
  unfold Date.le; infer_instance

instance (a b : Date) : Decidable (Date.lt a b) := by
  unfold Date.lt; infer_instance

theorem Date.le_refl (a : Date) : Date.le a a := by
  unfold Date.le; omega

theorem Date.le_trans {a b c : Date} (h1 : Date.le a b) (h2 : Date.le b c) :
    Date.le a c := by
  unfold Date.le at *; omega

theorem Date.le_total (a b : Date) : Date.le a b ∨ Date.le b a := by
  unfold Date.le; omega

theorem Date.le_antisymm {a b : Date} (h1 : Date.le a b) (h2 : Date.le b a) :
    a = b := by
  obtain ⟨ya, ma, da⟩ := a
  obtain ⟨yb, mb, db⟩ := b
  simp only [Date.le] at h1 h2
  simp only [Date.mk.injEq]
  omega

theorem Date.lt_iff {a b : Date} : Date.lt a b ↔ Date.le a b ∧ a ≠ b := by
  obtain ⟨ya, ma, da⟩ := a
  obtain ⟨yb, mb, db⟩ := b
  simp only [Date.lt, Date.le, ne_eq, Date.mk.injEq, not_and]
  constructor
  · intro h
    refine ⟨by omega, ?_⟩
    intro hy hm hd
    omega
  · intro ⟨h1, h2⟩
    by_cases hy : ya = yb
    · by_cases hm : ma = mb
      · have : ¬ da = db := fun hd => h2 hy hm hd
        omega
      · omega
    · omega

/-- Strict lexicographic order on char lists, as Python compares strings
(shorter string first when one is a proper initial run of the other). -/
def charsLt : List Char → List Char → Bool
  | [], [] => false
  | [], _ :: _ => true
  | _ :: _, [] => false
  | a :: as, b :: bs =>
      if a < b then true else if b < a then false else charsLt as bs

theorem charsLt_irrefl (a : List Char) : charsLt a a = false := by
  induction a with
  | nil => rfl
  | cons x xs ih => simp [charsLt, ih]

theorem charsLt_trans {a b c : List Char} (h1 : charsLt a b = true)
    (h2 : charsLt b c = true) : charsLt a c = true := by
  induction a generalizing b c with
  | nil =>
    cases b with
    | nil => simp [charsLt] at h1
    | cons y ys =>
      cases c with
      | nil => simp [charsLt] at h2
      | cons z zs => simp [charsLt]
  | cons x xs ih =>
    cases b with
    | nil => simp [charsLt] at h1
    | cons y ys =>
      cases c with
      | nil => simp [charsLt] at h2
      | cons z zs =>
        simp only [charsLt] at h1 h2 ⊢
        rcases lt_trichotomy x y with hxy | hxy | hxy
        · rcases lt_trichotomy y z with hyz | hyz | hyz
          · simp [lt_trans hxy hyz]
          · subst hyz; simp [hxy]
          · simp [asymm hyz, hyz] at h2
        · subst hxy
          simp only [lt_irrefl, if_false] at h1 h2
          rcases lt_trichotomy x z with hxz | hxz | hxz
          · simp [hxz]
          · subst hxz
            simp only [lt_irrefl, if_false] at h2 ⊢
            exact ih h1 h2
          · simp [asymm hxz, hxz] at h2
        · simp [asymm hxy, hxy] at h1

theorem charsLt_connex {a b : List Char} (h : a ≠ b) :
    charsLt a b = true ∨ charsLt b a = true := by
  induction a generalizing b with
  | nil =>
    cases b with
    | nil => exact absurd rfl h
    | cons y ys => left; simp [charsLt]
  | cons x xs ih =>
    cases b with
    | nil => right; simp [charsLt]
    | cons y ys =>
      by_cases hxy : x = y
      · subst hxy
        have hne : xs ≠ ys := fun hh => h (by rw [hh])
        rcases ih hne with h1 | h1
        · left; simp [charsLt, lt_irrefl, h1]
        · right; simp [charsLt, lt_irrefl, h1]
      · rcases lt_or_gt_of_ne hxy with hlt | hgt
        · left; simp [charsLt, hlt]
        · right; simp [charsLt, hgt]

/-- Python-style strict string comparison used to model `sort_values` on a
string key column. -/
def strLtB (s t : String) : Bool := charsLt s.data t.data

theorem strLtB_trans {a b c : String} (h1 : strLtB a b = true)
    (h2 : strLtB b c = true) : strLtB a c = true := charsLt_trans h1 h2

theorem strLtB_irrefl (a : String) : strLtB a a = false := charsLt_irrefl _

theorem strLtB_connex {a b : String} (h : a ≠ b) :
    strLtB a b = true ∨ strLtB b a = true := by
  refine charsLt_connex (fun hd => h (String.ext hd))

/-- Ascending order on a nullable date column: `NaT` sorts last
(pandas `sort_values` default `na_position` is last). -/
def odAscB : Option Date → Option Date → Bool
  | _, none => true
  | none, some _ => false
  | some a, some b => decide (Date.le a b)

/-- Descending order on a nullable date column: larger dates first, `NaT`
still last (pandas keeps `NaN` last also for `ascending=False`). -/
def odDescB : Option Date → Option Date → Bool
  | _, none => true
  | none, some _ => false
  | some a, some b => decide (Date.le b a)

theorem odAscB_trans {a b c : Option Date} (h1 : odAscB a b = true)
    (h2 : odAscB b c = true) : odAscB a c = true := by
  cases a <;> cases b <;> cases c <;> simp_all [odAscB]
  exact Date.le_trans h1 h2

theorem odAscB_total (a b : Option Date) : odAscB a b = true ∨ odAscB b a = true := by
  cases a <;> cases b <;> simp_all [odAscB]
  exact Date.le_total _ _

theorem odDescB_trans {a b c : Option Date} (h1 : odDescB a b = true)
    (h2 : odDescB b c = true) : odDescB a c = true := by
  cases a <;> cases b <;> cases c <;> simp_all [odDescB]
  exact Date.le_trans h2 h1

theorem odDescB_total (a b : Option Date) : odDescB a b = true ∨ odDescB b a = true := by
  cases a <;> cases b <;> simp_all [odDescB]
  exact (Date.le_total _ _).symm

/-- Two-column lexicographic comparator: primary string key ascending, then
a secondary comparator `d`.  Models `sort_values(by=[key, other])`. -/
def lexLeB (key : α → String) (d : α → α → Bool) (r1 r2 : α) : Bool :=
  if key r1 = key r2 then d r1 r2 else strLtB (key r1) (key r2)

theorem lexLeB_trans (key : α → String) (d : α → α → Bool)
    (hd : ∀ a b c, d a b = true → d b c = true → d a c = true)
    (a b c : α) (h1 : lexLeB key d a b = true) (h2 : lexLeB key d b c = true) :
    lexLeB key d a c = true := by
  unfold lexLeB at *
  by_cases h12 : key a = key b <;> by_cases h23 : key b = key c
  · rw [if_pos h12] at h1
    rw [if_pos h23] at h2
    rw [if_pos (h12.trans h23)]
    exact hd _ _ _ h1 h2
  · rw [if_pos h12] at h1
    rw [if_neg h23] at h2
    have hac : key a ≠ key c := fun h => h23 (h12.symm.trans h)
    rw [if_neg hac, h12]
    exact h2
  · rw [if_neg h12] at h1
    rw [if_pos h23] at h2
    have hac : key a ≠ key c := fun h => h12 (h.trans h23.symm)
    rw [if_neg hac, ← h23]
    exact h1
  · rw [if_neg h12] at h1
    rw [if_neg h23] at h2
    by_cases hac : key a = key c
    · exfalso
      rw [← hac] at h2
      have := strLtB_trans h1 h2
      rw [strLtB_irrefl] at this
      exact Bool.noConfusion this
    · rw [if_neg hac]
      exact strLtB_trans h1 h2

theorem lexLeB_total (key : α → String) (d : α → α → Bool)
    (hd : ∀ a b, d a b = true ∨ d b a = true) (a b : α) :
    lexLeB key d a b = true ∨ lexLeB key d b a = true := by
  unfold lexLeB
  by_cases h : key a = key b
  · rw [if_pos h, if_pos h.symm]
    exact hd a b
  · rw [if_neg h, if_neg (Ne.symm h)]
    exact strLtB_connex h

/-- `drop_duplicates(subset=key, keep=first-occurrence)`: keeps the first row
of each key value, scanning in frame order (`seen` are keys already kept). -/
def dedupFirstAux (key : α → κ) [DecidableEq κ] (seen : List κ) : List α → List α
  | [] => []
  | x :: xs =>
      if key x ∈ seen then dedupFirstAux key seen xs
      else x :: dedupFirstAux key (key x :: seen) xs

/-- `df.drop_duplicates(subset=[key])` with the default keep-first policy. -/
def dedupFirst (key : α → κ) [DecidableEq κ] (l : List α) : List α :=
  dedupFirstAux key [] l

theorem dedupFirstAux_filter (key : α → κ) [DecidableEq κ] (k : κ) :
    ∀ (l : List α) (seen : List κ),
    (dedupFirstAux key seen l).filter (fun r => decide (key r = k)) =
      if k ∈ seen then [] else (l.filter (fun r => decide (key r = k))).take 1 := by
  intro l
  induction l with
  | nil => intro seen; cases Decidable.em (k ∈ seen) <;> simp_all [dedupFirstAux]
  | cons x xs ih =>
    intro seen
    by_cases hx : key x ∈ seen
    · rw [dedupFirstAux, if_pos hx, ih]
      by_cases hk : k ∈ seen
      · rw [if_pos hk, if_pos hk]
      · rw [if_neg hk, if_neg hk]
        have hxk : ¬ key x = k := fun h => hk (h ▸ hx)
        simp [List.filter_cons, hxk]
    · rw [dedupFirstAux, if_neg hx, List.filter_cons, ih]
      by_cases hxk : key x = k
      · subst hxk
        simp only [List.mem_cons, true_or, if_true]
        by_cases hk : key x ∈ seen
        · exact absurd hk hx
        · rw [if_neg hk]
          simp [List.filter_cons]
      · simp only [hxk]
        by_cases hk : k ∈ seen
        · rw [if_pos (List.mem_cons_of_mem _ hk)]
          simp [if_pos hk]
        · have hkx : ¬ k ∈ key x :: seen := by
            simp only [List.mem_cons, not_or]
            exact ⟨fun h => hxk h.symm, hk⟩
          rw [if_neg hkx, if_neg hk]
          simp [List.filter_cons, hxk]

theorem dedupFirst_filter (key : α → κ) [DecidableEq κ] (k : κ) (l : List α) :
    (dedupFirst key l).filter (fun r => decide (key r = k)) =
      (l.filter (fun r => decide (key r = k))).take 1 := by
  rw [dedupFirst, dedupFirstAux_filter]
  simp

theorem dedupFirstAux_subset (key : α → κ) [DecidableEq κ] :
    ∀ (l : List α) (seen : List κ) (x : α), x ∈ dedupFirstAux key seen l → x ∈ l := by
  intro l
  induction l with
  | nil => intro seen x h; simp [dedupFirstAux] at h
  | cons a as ih =>
    intro seen x h
    rw [dedupFirstAux] at h
    by_cases ha : key a ∈ seen
    · rw [if_pos ha] at h
      exact List.mem_cons_of_mem _ (ih _ _ h)
    · rw [if_neg ha] at h
      rcases List.mem_cons.mp h with h | h
      · exact h ▸ List.mem_cons_self _ _
      · exact List.mem_cons_of_mem _ (ih _ _ h)

theorem dedupFirstAux_keys_nodup (key : α → κ) [DecidableEq κ] :
    ∀ (l : List α) (seen : List κ),
    ((dedupFirstAux key seen l).map key).Nodup ∧
      ∀ k ∈ seen, k ∉ (dedupFirstAux key seen l).map key := by
  intro l
  induction l with
  | nil => intro seen; simp [dedupFirstAux]
  | cons a as ih =>
    intro seen
    rw [dedupFirstAux]
    by_cases ha : key a ∈ seen
    · rw [if_pos ha]
      exact ih seen
    · rw [if_neg ha]
      obtain ⟨hnd, hout⟩ := ih (key a :: seen)
      refine ⟨?_, ?_⟩
      · simp only [List.map_cons, List.nodup_cons]
        exact ⟨hout _ (List.mem_cons_self _ _), hnd⟩
      · intro k hk
        simp only [List.map_cons, List.mem_cons, not_or]
        exact ⟨fun h => ha (h ▸ hk), hout _ (List.mem_cons_of_mem _ hk)⟩

theorem dedupFirst_keys_nodup (key : α → κ) [DecidableEq κ] (l : List α) :
    ((dedupFirst key l).map key).Nodup :=
  (dedupFirstAux_keys_nodup key l []).1

/-! ### String helpers mirroring the pandas `.str` accessors used by the code -/

/-- Whitespace stripped by Python `str.strip()` (ASCII subset). -/
def isStripChar (c : Char) : Bool :=
  c = ' ' ∨ c = '\t' ∨ c = '\n' ∨ c = '\x0d'

/-- `.str.strip()`. -/
def pyStrip (s : String) : String :=
  ⟨((s.data.dropWhile isStripChar).reverse.dropWhile isStripChar).reverse⟩

/-- `.str.upper()`. -/
def pyUpper (s : String) : String :=
  ⟨s.data.map Char.toUpper⟩

/-- `.str.title()`: capitalize each character following a non-letter,
lower-case the rest (Python title-case, ASCII subset). -/
def titleCaseAux : Bool → List Char → List Char
  | _, [] => []
  | prevAlpha, c :: cs =>
      (if prevAlpha then c.toLower else c.toUpper) :: titleCaseAux c.isAlpha cs

/-- `.str.title()`. -/
def titleCase (s : String) : String := ⟨titleCaseAux false s.data⟩

/-- `.str.replace('-', '_', regex=False)` (single-character pattern). -/
def dashToUnderscore (s : String) : String :=
  ⟨s.data.map (fun c => if c = '-' then '_' else c)⟩

/-- `.str.replace('-', '')` (single-character pattern, empty replacement). -/
def removeDashes (s : String) : String :=
  ⟨s.data.filter (fun c => !(c = '-'))⟩

/-- `np.where(cid.str.startswith('NAS'), cid.str[3:], cid)`. -/
def stripNAS (s : String) : String :=
  if s.data.take 3 = ['N', 'A', 'S'] then ⟨s.data.drop 3⟩ else s

/-- `prd_key.str[:5].str.replace('-', '_', regex=False)`. -/
def catIdOf (s : String) : String := dashToUnderscore ⟨s.data.take 5⟩

/-- `prd_key.str[6:]`. -/
def prodCodeOf (s : String) : String := ⟨s.data.drop 6⟩

/-! ### Value Normalizer: `.replace(dict).fillna('Unknown')` chains -/

/-- `Series.replace(dict)` on one value: exact-match lookup, pass-through
when the value is not a key of the dict. -/
def lookupOr (tbl : List (String × String)) (t : String) : String :=
  (tbl.lookup t).getD t

/-- Gender lookup dict shared by `cst_gndr` (lines 140-145). -/
def genderTable : List (String × String) :=
  [("M", "Male"), ("MALE", "Male"), ("F", "Female"), ("FEMALE", "Female")]

/-- `cst_gndr.str.upper().str.strip().replace(genderTable).fillna('Unknown')`. -/
def cleanGndrCust : Option String → String
  | none => "Unknown"
  | some s => lookupOr genderTable (pyStrip (pyUpper s))

/-- Gender dict of `erp_customer_az12.gen` (lines 359-366), which adds
`'UNKNOWN'` and `''` entries. -/
def genTableAz12 : List (String × String) :=
  genderTable ++ [("UNKNOWN", "Unknown"), ("", "Unknown")]

/-- `gen.str.strip().str.upper().replace(genTableAz12).fillna('Unknown')`. -/
def cleanGenAz12 : Option String → String
  | none => "Unknown"
  | some s => lookupOr genTableAz12 (pyUpper (pyStrip s))

/-- Marital-status dict (lines 126-131). -/
def maritalTable : List (String × String) :=
  [("M", "Married"), ("MARRIED", "Married"), ("S", "Single"), ("SINGLE", "Single")]

/-- `cst_marital_status.str.upper().str.strip().replace(...).fillna('Unknown')`. -/
def cleanMarital : Option String → String
  | none => "Unknown"
  | some s => lookupOr maritalTable (pyStrip (pyUpper s))

/-- Product-line dict (lines 219-228). -/
def prodLineTable : List (String × String) :=
  [("M", "Mountain"), ("MOUNTAIN", "Mountain"), ("R", "Road"), ("ROAD", "Road"),
   ("S", "Other Sales"), ("OTHER SALES", "Other Sales"),
   ("T", "Touring"), ("TOURING", "Touring")]

/-- `prd_line.str.upper().str.strip().replace(...).fillna('Unknown')`. -/
def cleanProdLine : Option String → String
  | none => "Unknown"
  | some s => lookupOr prodLineTable (pyStrip (pyUpper s))

/-- `cst_firstname.str.strip().replace('', 'Unknown')`: note `replace` (not
`fillna`), so a missing name stays missing, only the empty string is
rewritten. -/
def cleanName : Option String → Option String
  | none => none
  | some s => some (if pyStrip s = "" then "Unknown" else pyStrip s)

/-- Country dict of `erp_location_a101.cntry` (lines 419-425). -/
def countryTable : List (String × String) :=
  [("US", "United States"), ("USA", "United States"), ("DE", "Germany"),
   ("", "Unknown"), ("FEMALE", "Unknown")]

/-- `cntry.str.strip().str.upper().replace(countryTable).str.title()
.fillna('Unknown')`. -/
def cleanCountry : Option String → String
  | none => "Unknown"
  | some s => titleCase (lookupOr countryTable (pyUpper (pyStrip s)))

/-! ### Date Repairer: `clean_yyyymmdd` (lines 262-265) -/

/-- Evaluate a digit string; `none` when any character is not a digit. -/
def digitsVal (cs : List Char) : Option Nat :=
  cs.foldl
    (fun acc c => acc.bind (fun n => if c.isDigit then some (n * 10 + (c.toNat - 48)) else none))
    (some 0)

/-- Smallest calendar day representable by a nanosecond `pd.Timestamp`
(`Timestamp.min` is 1677-09-21 00:12, so the first full day is 09-22);
`to_datetime(..., errors='coerce')` maps anything earlier to `NaT`. -/
def pandasMinDate : Date := ⟨1677, 9, 22⟩

/-- Largest calendar day representable by a nanosecond `pd.Timestamp`. -/
def pandasMaxDate : Date := ⟨2262, 4, 11⟩

/-- The fixed-width Sales Line date parser `clean_yyyymmdd`:
`col.astype(str).str.split('.').str[0]` (text before the first dot of the
value's textual form), `None` unless exactly 8 characters, then a strict
`%Y%m%d` parse with `errors='coerce'` (8 digits forming a valid in-range
calendar date, else missing).  The input here is the textual form that
`astype(str)` produces for the raw value. -/
def clean_yyyymmdd (s : String) : Option Date :=
  let t := s.data.takeWhile (fun c => !(c = '.'))
  if t.length ≠ 8 then none
  else
    match digitsVal (t.take 4), digitsVal ((t.drop 4).take 2), digitsVal (t.drop 6) with
    | some yy, some mm, some dd =>
        if 1 ≤ mm ∧ mm ≤ 12 ∧ 1 ≤ dd ∧ dd ≤ daysInMonth yy mm ∧
            Date.le pandasMinDate ⟨yy, mm, dd⟩ ∧ Date.le ⟨yy, mm, dd⟩ pandasMaxDate
        then some ⟨(yy : Int), mm, dd⟩
        else none
    | _, _, _ => none

/-! ### Entity record types (bronze in, silver out) -/

/-- A `bronze.crm_customer_info` row (`cst_create_date` modelled after the
`pd.to_datetime(..., errors='coerce')` step as a nullable date). -/
structure CustRowIn where
  cust_id : Option String
  cst_firstname : Option String
  cst_lastname : Option String
  cst_marital_status : Option String
  cst_gndr : Option String
  cst_create_date : Option Date
deriving DecidableEq, Repr

/-- A `silver.crm_customer_info` row. -/
structure CustRowOut where
  cust_id : Option String
  cst_firstname : Option String
  cst_lastname : Option String
  cst_marital_status : String
  cst_gndr : String
  cst_create_date : Option Date
  load_timestamp : Nat
deriving DecidableEq, Repr

/-- A `bronze.crm_product_info` row. -/
structure ProdRowIn where
  prd_key : Option String
  prd_cost : Option ℚ
  prd_line : Option String
  prd_start_dt : Option Date
  prd_end_dt : Option Date
deriving DecidableEq, Repr

/-- A `silver.crm_product_info` row. -/
structure ProdRowOut where
  category_id : String
  prd_key : String
  prd_cost : ℚ
  prd_line : String
  prd_start_dt : Option Date
  prd_end_dt : Option Date
  load_timestamp : Nat
deriving DecidableEq, Repr

/-- A `bronze.crm_sales_details` row; the three date columns are the textual
forms produced by `astype(str)` on the raw values. -/
structure SalesRowIn where
  sls_ord_num : Option String
  sls_prd_key : Option String
  sls_cust_id : Option String
  sls_order_dt : String
  sls_ship_dt : String
  sls_due_dt : String
  sls_quantity : Option ℚ
  sls_price : Option ℚ
  sls_sales : Option ℚ
deriving DecidableEq, Repr

/-- A `silver.crm_sales_details` row. -/
structure SalesRowOut where
  sls_ord_num : Option String
  sls_prd_key : Option String
  sls_cust_id : Option String
  sls_order_dt : Option Date
  sls_ship_dt : Option Date
  sls_due_dt : Option Date
  sls_quantity : Option ℚ
  sls_price : Option ℚ
  sls_sales : Option ℚ
  load_timestamp : Nat
deriving DecidableEq, Repr

/-- A `bronze.erp_customer_az12` row (`bdate` modelled post
`to_datetime(..., errors='coerce')`). -/
structure Az12RowIn where
  cid : Option String
  bdate : Option Date
  gen : Option String
deriving DecidableEq, Repr

/-- A `silver.erp_customer_az12` row. -/
structure Az12RowOut where
  cid : String
  bdate : Option Date
  gen : String
  load_timestamp : Nat
deriving DecidableEq, Repr

/-- A `bronze.erp_location_a101` row. -/
structure LocRowIn where
  cid : Option String
  cntry : Option String
deriving DecidableEq, Repr

/-- A `silver.erp_location_a101` row. -/
structure LocRowOut where
  cid : String
  cntry : String
  load_timestamp : Nat
deriving DecidableEq, Repr

/-- A `bronze.erp_product_category` row. -/
structure PcRowIn where
  id : Option String
  cat : Option String
  subcat : Option String
  maintenance : Option String
deriving DecidableEq, Repr

/-- A `silver.erp_product_category` row. -/
structure PcRowOut where
  id : Option String
  cat : Option String
  subcat : Option String
  maintenance : Option String
  load_timestamp : Nat
deriving DecidableEq, Repr

/-! ### Entity pipelines -/

/-- Sort key of `sort_values(by=['cust_id', ...])` (all keys are present
strings once `dropna(subset=['cust_id'])` has run). -/
def custKey (r : CustRowIn) : String := r.cust_id.getD ""

/-- `sort_values(by=['cust_id', 'cst_create_date'], ascending=[True, False])`
comparator. -/
def custLeB (r1 r2 : CustRowIn) : Bool :=
  lexLeB custKey (fun a b => odDescB a.cst_create_date b.cst_create_date) r1 r2

/-- `custLeB` as a relation, for the sort. -/
def custLe (r1 r2 : CustRowIn) : Prop := custLeB r1 r2 = true

instance : DecidableRel custLe := fun r1 r2 => by
  unfold custLe; infer_instance

instance : IsTotal CustRowIn custLe :=
  ⟨fun a b => lexLeB_total custKey
    (fun x y => odDescB x.cst_create_date y.cst_create_date)
    (fun x y => odDescB_total x.cst_create_date y.cst_create_date) a b⟩

instance : IsTrans CustRowIn custLe :=
  ⟨fun a b c h1 h2 => lexLeB_trans custKey
    (fun x y => odDescB x.cst_create_date y.cst_create_date)
    (fun _ _ _ hx hy => odDescB_trans hx hy) a b c h1 h2⟩

/-- Lines 93-106: drop missing keys, sort (key asc, create date desc), keep
the first row per key.  The sort is modelled by the stable `insertionSort`;
pandas' default quicksort fixes no tie order either, and no proved property
depends on the tie order. -/
def custDeduped (rows : List CustRowIn) : List CustRowIn :=
  dedupFirst (fun r => r.cust_id)
    (List.insertionSort custLe (rows.filter (fun r => r.cust_id.isSome)))

/-- The `load_crm_customer_info` transformation (lines 89-151), up to the
Loader hand-off: key validation, dedup by recency, name/marital/gender
cleansing, timestamp stamping. -/
def load_crm_customer_info (ts : Nat) (rows : List CustRowIn) : List CustRowOut :=
  (custDeduped rows).map (fun r =>
    { cust_id := r.cust_id
      cst_firstname := cleanName r.cst_firstname
      cst_lastname := cleanName r.cst_lastname
      cst_marital_status := cleanMarital r.cst_marital_status
      cst_gndr := cleanGndrCust r.cst_gndr
      cst_create_date := r.cst_create_date
      load_timestamp := ts })

/-- Sort key of the product frame (`prd_key` is present after `dropna`). -/
def prodKeyStr (r : ProdRowIn) : String := r.prd_key.getD ""

/-- `sort_values(['prd_key', 'prd_start_dt'])` comparator. -/
def prodLeB (r1 r2 : ProdRowIn) : Bool :=
  lexLeB prodKeyStr (fun a b => odAscB a.prd_start_dt b.prd_start_dt) r1 r2

/-- `prodLeB` as a relation, for the sort. -/
def prodLe (r1 r2 : ProdRowIn) : Prop := prodLeB r1 r2 = true

instance : DecidableRel prodLe := fun r1 r2 => by
  unfold prodLe; infer_instance

instance : IsTotal ProdRowIn prodLe :=
  ⟨fun a b => lexLeB_total prodKeyStr
    (fun x y => odAscB x.prd_start_dt y.prd_start_dt)
    (fun x y => odAscB_total x.prd_start_dt y.prd_start_dt) a b⟩

instance : IsTrans ProdRowIn prodLe :=
  ⟨fun a b c h1 h2 => lexLeB_trans prodKeyStr
    (fun x y => odAscB x.prd_start_dt y.prd_start_dt)
    (fun _ _ _ hx hy => odAscB_trans hx hy) a b c h1 h2⟩

/-- Lines 181-188: drop missing keys and sort for the SCD logic (stable
`insertionSort`, see `custDeduped`). -/
def prodSorted (rows : List ProdRowIn) : List ProdRowIn :=
  List.insertionSort prodLe (rows.filter (fun r => r.prd_key.isSome))

/-- `groupby('prd_key')['prd_start_dt'].shift(-1) - pd.Timedelta(days=1)`
(lines 191-195): each row is paired with the start date of the next row of
the same `prd_key` value in frame order, minus one day; `NaT` when there is
no such row or its start is `NaT`. -/
def scdShift : List ProdRowIn → List (ProdRowIn × Option Date)
  | [] => []
  | r :: rest =>
      (r, match rest.find? (fun x => x.prd_key = r.prd_key) with
          | none => none
          | some x => x.prd_start_dt.map Date.pred) :: scdShift rest

theorem scdShift_length : ∀ l : List ProdRowIn, (scdShift l).length = l.length := by
  intro l
  induction l with
  | nil => rfl
  | cons a as ih => rw [scdShift]; simp [ih]

/-- The `load_crm_product_info` transformation (lines 177-236): key
validation, SCD window derivation, key split, cost/product-line cleansing,
timestamp stamping. -/
def load_crm_product_info (ts : Nat) (rows : List ProdRowIn) : List ProdRowOut :=
  (scdShift (prodSorted rows)).map (fun re =>
    { category_id := catIdOf (prodKeyStr re.1)
      prd_key := prodCodeOf (prodKeyStr re.1)
      prd_cost := re.1.prd_cost.getD 0
      prd_line := cleanProdLine re.1.prd_line
      prd_start_dt := re.1.prd_start_dt
      prd_end_dt := re.2
      load_timestamp := ts })

/-- `Series.abs()` on one value. -/
def ratAbs (q : ℚ) : ℚ := if q < 0 then -q else q

theorem ratAbs_eq_abs (q : ℚ) : ratAbs q = |q| := by
  unfold ratAbs
  split_ifs with h
  · rw [abs_of_neg h]
  · rw [abs_of_nonneg (not_lt.mp h)]

/-- Line 278: `calc_sales = quantity.fillna(0) * price.fillna(0).abs()`. -/
def calcSalesOf (r : SalesRowIn) : ℚ :=
  r.sls_quantity.getD 0 * ratAbs (r.sls_price.getD 0)

/-- Lines 280-284: `sls_sales.isna() | (sls_sales <= 0) | (sls_sales !=
calc_sales)` (a `NaN` comparison is covered by the `isna` disjunct). -/
def salesCondOf (r : SalesRowIn) : Bool :=
  match r.sls_sales with
  | none => true
  | some s => decide (s ≤ 0) || !(decide (s = calcSalesOf r))

/-- Line 286: `np.where(sales_condition, calc_sales, sls_sales)`. -/
def salesAfter (r : SalesRowIn) : Option ℚ :=
  if salesCondOf r then some (calcSalesOf r) else r.sls_sales

/-- Line 290: `sls_price.isna() | (sls_price <= 0)`. -/
def priceCondOf (r : SalesRowIn) : Bool :=
  match r.sls_price with
  | none => true
  | some p => decide (p ≤ 0)

/-- Line 292: `sls_sales / sls_quantity.replace(0, np.nan)`, computed on the
already-rewritten `sls_sales` column; division by `NaN` yields `NaN`. -/
def calcPriceOf (r : SalesRowIn) : Option ℚ :=
  match r.sls_quantity with
  | none => none
  | some qv => if qv = 0 then none else (salesAfter r).bind (fun s => some (s / qv))

/-- Line 294: `np.where(price_condition, calc_price, sls_price)`. -/
def priceAfter (r : SalesRowIn) : Option ℚ :=
  if priceCondOf r then calcPriceOf r else r.sls_price

/-- The sales reconciliation of lines 278-298, returning the final
`(sls_sales, sls_price)` pair of one row; line 298 is the last-resort
`fillna(0)` on both columns. -/
def reconcile (r : SalesRowIn) : Option ℚ × Option ℚ :=
  (some ((salesAfter r).getD 0), some ((priceAfter r).getD 0))

/-- The `load_crm_sales_details` transformation (lines 259-300): fixed-width
date repair on the three date columns, then quantity/price/amount
reconciliation, then timestamp stamping. -/
def load_crm_sales_details (ts : Nat) (rows : List SalesRowIn) : List SalesRowOut :=
  rows.map (fun r =>
    { sls_ord_num := r.sls_ord_num
      sls_prd_key := r.sls_prd_key
      sls_cust_id := r.sls_cust_id
      sls_order_dt := clean_yyyymmdd r.sls_order_dt
      sls_ship_dt := clean_yyyymmdd r.sls_ship_dt
      sls_due_dt := clean_yyyymmdd r.sls_due_dt
      sls_quantity := r.sls_quantity
      sls_sales := (reconcile r).1
      sls_price := (reconcile r).2
      load_timestamp := ts })

/-- The `load_erp_customer_az12` transformation (lines 322-372): drop missing
keys, dedup on the raw `cid`, strip the `NAS` prefix, null out future birth
dates relative to `today`, gender cleansing, timestamp stamping. -/
def load_erp_customer_az12 (today : Date) (ts : Nat) (rows : List Az12RowIn) :
    List Az12RowOut :=
  (dedupFirst (fun r => r.cid) (rows.filter (fun r => r.cid.isSome))).map (fun r =>
    { cid := stripNAS (r.cid.getD "")
      bdate := match r.bdate with
               | none => none
               | some b => if Date.lt today b then none else some b
      gen := cleanGenAz12 r.gen
      load_timestamp := ts })

/-- The `load_erp_location_a101` transformation (lines 398-431): drop missing
keys, dedup on `cid`, remove dashes from `cid`, country cleansing, timestamp
stamping. -/
def load_erp_location_a101 (ts : Nat) (rows : List LocRowIn) : List LocRowOut :=
  (dedupFirst (fun r => r.cid) (rows.filter (fun r => r.cid.isSome))).map (fun r =>
    { cid := removeDashes (r.cid.getD "")
      cntry := cleanCountry r.cntry
      load_timestamp := ts })

/-- The `load_erp_product_category` transformation (lines 451-461): the
duplicate-key and null counts of lines 458-460 are computed but their results
are discarded, so the record set is passed through unchanged apart from the
added `load_timestamp`. -/
def load_erp_product_category (ts : Nat) (rows : List PcRowIn) : List PcRowOut :=
  rows.map (fun r =>
    { id := r.id
      cat := r.cat
      subcat := r.subcat
      maintenance := r.maintenance
      load_timestamp := ts })

/-! ### Orchestration -/

/-- The six bronze record sets fetched at the start of a run. -/
structure RawZone where
  customer_info : List CustRowIn
  product_info : List ProdRowIn
  sales_details : List SalesRowIn
  customer_az12 : List Az12RowIn
  location_a101 : List LocRowIn
  product_category : List PcRowIn
deriving DecidableEq, Repr

/-- The six silver record sets produced by one run. -/
structure SilverZone where
  customer_info : List CustRowOut
  product_info : List ProdRowOut
  sales_details : List SalesRowOut
  customer_az12 : List Az12RowOut
  location_a101 : List LocRowOut
  product_category : List PcRowOut
deriving DecidableEq, Repr

/-- One full `main` run over an unchanged raw zone, as a pure function of the
raw data, the processing day `today` and the stamped timestamp `ts`. -/
def runAll (today : Date) (ts : Nat) (raw : RawZone) : SilverZone :=
  { customer_info := load_crm_customer_info ts raw.customer_info
    product_info := load_crm_product_info ts raw.product_info
    sales_details := load_crm_sales_details ts raw.sales_details
    customer_az12 := load_erp_customer_az12 today ts raw.customer_az12
    location_a101 := load_erp_location_a101 ts raw.location_a101
    product_category := load_erp_product_category ts raw.product_category }

/-- Zero out every `load_timestamp` column, the comparison modulus of the
spec's idempotence property. -/
def SilverZone.clearTs (z : SilverZone) : SilverZone :=
  { customer_info := z.customer_info.map (fun r => { r with load_timestamp := 0 })
    product_info := z.product_info.map (fun r => { r with load_timestamp := 0 })
    sales_details := z.sales_details.map (fun r => { r with load_timestamp := 0 })
    customer_az12 := z.customer_az12.map (fun r => { r with load_timestamp := 0 })
    location_a101 := z.location_a101.map (fun r => { r with load_timestamp := 0 })
    product_category := z.product_category.map (fun r => { r with load_timestamp := 0 }) }

/-- A storage collaborator for one entity: a fetch that may fail and a store
(truncate + append) that may fail. -/
structure EntityIO (β : Type) (γ : Type) where
  fetch : Except String β
  store : γ → Except String Unit

/-- The body of one `load_*` function: fetch the bronze record set, transform
it, hand it to the Loader.  Any storage failure surfaces as `Except.error`. -/
def entityBody {β γ : Type} (io : EntityIO β γ) (transform : β → γ) :
    Except String Unit := do
  let rows ← io.fetch
  io.store (transform rows)

/-- The `except Exception as e: print(...)` clause: a failure is absorbed
into the logged message, a success logs nothing. -/
def entityCatch (body : Except String Unit) : Option String :=
  match body with
  | Except.ok _ => none
  | Except.error e => some e

/-- The `try/except` wrapper of each `load_*` function: the function always
returns normally, so the orchestrator's own `try` never sees a failure. -/
def entityStep (body : Except String Unit) : Except String (Option String) :=
  Except.ok (entityCatch body)

/-- Storage collaborators of a whole run, one `EntityIO` per entity. -/
structure RunIO where
  cust : EntityIO (List CustRowIn) (List CustRowOut)
  prod : EntityIO (List ProdRowIn) (List ProdRowOut)
  sales : EntityIO (List SalesRowIn) (List SalesRowOut)
  az12 : EntityIO (List Az12RowIn) (List Az12RowOut)
  loc : EntityIO (List LocRowIn) (List LocRowOut)
  pc : EntityIO (List PcRowIn) (List PcRowOut)

/-- The `main` orchestrator (lines 484-514): the six entity pipelines run in
order inside `main`'s own `try`; the run's result is the list of per-entity
logged failures (`none` = entity loaded). -/
def mainRun (today : Date) (ts : Nat) (io : RunIO) :
    Except String (List (Option String)) := do
  let o1 ← entityStep (entityBody io.cust (load_crm_customer_info ts))
  let o2 ← entityStep (entityBody io.prod (load_crm_product_info ts))
  let o3 ← entityStep (entityBody io.sales (load_crm_sales_details ts))
  let o4 ← entityStep (entityBody io.az12 (load_erp_customer_az12 today ts))
  let o5 ← entityStep (entityBody io.loc (load_erp_location_a101 ts))
  let o6 ← entityStep (entityBody io.pc (load_erp_product_category ts))
  Except.ok [o1, o2, o3, o4, o5, o6]

/-! ## Claims -/

/-- C6: the fixed-width Sales Line date parser first strips a trailing
fractional part from the value's textual form; `"20230101"` and
`"20230101.0"` parse to 2023-01-01, any value whose resulting string is not
exactly 8 characters long (e.g. `"2023011"`) is missing, and strict-parse
failures (e.g. `"abcdefgh"`) are missing; the parser is a total function
(never raises). -/
theorem claim6_fixed_width_parse :
    clean_yyyymmdd "20230101" = some ⟨2023, 1, 1⟩ ∧
    clean_yyyymmdd "20230101.0" = some ⟨2023, 1, 1⟩ ∧
    clean_yyyymmdd "2023011" = none ∧
    clean_yyyymmdd "abcdefgh" = none ∧
    (∀ s : String, (s.data.takeWhile (fun c => !(c = '.'))).length ≠ 8 →
      clean_yyyymmdd s = none) := by
  refine ⟨by decide, by decide, by decide, by decide, ?_⟩
  intro s h
  unfold clean_yyyymmdd
  rw [if_pos h]

/-- Witness for C6: the length guard at a concrete 3-character input. -/
theorem claim6_witness : clean_yyyymmdd "123" = none :=
  claim6_fixed_width_parse.2.2.2.2 "123" (by decide)

/-- C3 counterexample: the unmapped, non-missing gender value `"x"` is
passed through upper-cased as `"X"` by both gender normalizers, not mapped
to `"Unknown"` as the claim states. -/
theorem claim3_counterexample :
    cleanGndrCust (some "x") = "X" ∧ cleanGenAz12 (some "x") = "X" ∧
    ¬ cleanGndrCust (some "x") = "Unknown" := by
  decide

/-- C3 amended: a missing gender value maps to `"Unknown"` (and, in the
Customer Demographic pipeline, so do `""` and `"UNKNOWN"`); the recognized
variants `"m"`, `"MALE"`, `" F "` map to `"Male"`, `"Male"`, `"Female"`;
but a non-missing value with no entry in the lookup table after
trimming/upper-casing is passed through in that folded form rather than
defaulted to `"Unknown"` — in particular `"x"` maps to `"X"`. -/
theorem claim3_amended :
    cleanGndrCust none = "Unknown" ∧
    cleanGenAz12 none = "Unknown" ∧
    cleanGndrCust (some "m") = "Male" ∧
    cleanGndrCust (some "MALE") = "Male" ∧
    cleanGndrCust (some " F ") = "Female" ∧
    cleanGenAz12 (some "m") = "Male" ∧
    cleanGenAz12 (some "MALE") = "Male" ∧
    cleanGenAz12 (some " F ") = "Female" ∧
    cleanGenAz12 (some "") = "Unknown" ∧
    cleanGenAz12 (some " unknown ") = "Unknown" ∧
    (∀ s : String, genderTable.lookup (pyStrip (pyUpper s)) = none →
        cleanGndrCust (some s) = pyStrip (pyUpper s)) ∧
    (∀ s : String, genTableAz12.lookup (pyUpper (pyStrip s)) = none →
        cleanGenAz12 (some s) = pyUpper (pyStrip s)) := by
  refine ⟨by decide, by decide, by decide, by decide, by decide, by decide,
    by decide, by decide, by decide, by decide, ?_, ?_⟩
  · intro s h
    simp [cleanGndrCust, lookupOr, h]
  · intro s h
    simp [cleanGenAz12, lookupOr, h]

/-- Witness for C3 amended: the pass-through clause at `"x"`. -/
theorem claim3_amended_witness :
    genderTable.lookup (pyStrip (pyUpper "x")) = none ∧
    cleanGndrCust (some "x") = pyStrip (pyUpper "x") :=
  ⟨by decide, claim3_amended.2.2.2.2.2.2.2.2.2.2.1 "x" (by decide)⟩

/-- The C4 input row: quantity 2, missing unit price, sales amount 20. -/
def c4row : SalesRowIn :=
  { sls_ord_num := none, sls_prd_key := none, sls_cust_id := none
    sls_order_dt := "", sls_ship_dt := "", sls_due_dt := ""
    sls_quantity := some 2, sls_price := none, sls_sales := some 20 }

/-- C4 counterexample: with quantity 2, price missing, sales 20, the code
first rewrites sales to `candidate = 2 × |0| = 0` (20 differs from the
candidate), then recomputes price as `0 / 2 = 0` — the output price is 0,
not 10 as the claim states. -/
theorem claim4_counterexample :
    reconcile c4row = (some 0, some 0) ∧ ¬ (reconcile c4row).2 = some 10 := by
  have hq : c4row.sls_quantity = some 2 := rfl
  have hp : c4row.sls_price = none := rfl
  have hs : c4row.sls_sales = some 20 := rfl
  have hc : calcSalesOf c4row = 0 := by
    simp [calcSalesOf, hq, hp, ratAbs]
  have hsa : salesAfter c4row = some 0 := by
    simp [salesAfter, salesCondOf, hs, hc]
  have hpa : priceAfter c4row = some 0 := by
    simp [priceAfter, priceCondOf, calcPriceOf, hp, hq, hsa]
  exact ⟨by simp [reconcile, hsa, hpa], by simp [reconcile, hpa]⟩

/-- C4 amended: for a Sales Line input row with quantity 2, unit price
missing and sales amount 20, the reconciled row has `sls_sales = 0` and
`sls_price = 0`: the amount is reconciled first against the original
(zero-filled) price, and the price recomputation then divides the
already-rewritten amount. -/
theorem claim4_amended (r : SalesRowIn) (hq : r.sls_quantity = some 2)
    (hp : r.sls_price = none) (hs : r.sls_sales = some 20) :
    reconcile r = (some 0, some 0) := by
  have hc : calcSalesOf r = 0 := by
    simp [calcSalesOf, hq, hp, ratAbs]
  have hsa : salesAfter r = some 0 := by
    simp [salesAfter, salesCondOf, hs, hc]
  have hpa : priceAfter r = some 0 := by
    simp [priceAfter, priceCondOf, calcPriceOf, hp, hq, hsa]
  simp [reconcile, hsa, hpa]

/-- Witness for C4 amended, at the concrete row `c4row`. -/
theorem claim4_amended_witness :
    (c4row.sls_quantity = some 2 ∧ c4row.sls_price = none ∧
      c4row.sls_sales = some 20) ∧
    reconcile c4row = (some 0, some 0) :=
  ⟨⟨rfl, rfl, rfl⟩, claim4_amended c4row rfl rfl rfl⟩

/-- The C10 input: a raw `cid` with the `NAS` prefix and the same `cid`
without it. -/
def c10rows : List Az12RowIn :=
  [{ cid := some "NAS123", bdate := none, gen := none },
   { cid := some "123", bdate := none, gen := none }]

/-- C10: the Customer Demographic pipeline deduplicates on the raw `cid`
before the `NAS` prefix is stripped, so an input containing both
`"NAS123"` and `"123"` keeps both records and the output carries the
duplicate key `"123"` twice. -/
theorem claim10_dedup_before_nas :
    (load_erp_customer_az12 ⟨2025, 1, 1⟩ 0 c10rows).map (fun r => r.cid) =
      ["123", "123"] ∧
    ¬ ((load_erp_customer_az12 ⟨2025, 1, 1⟩ 0 c10rows).map
        (fun r => r.cid)).Nodup := by
  decide

/-- C8: every entity pipeline wraps its fetch/transform/store in a
`try/except` that absorbs the failure, so a whole run always returns
normally (`Except.ok`, never a propagated error) with six per-entity
outcomes, and each entity's outcome is computed from that entity's own
storage collaborator alone — one entity's failure cannot abort or alter
the others. -/
theorem claim8_failure_isolation (today : Date) (ts : Nat) (io : RunIO) :
    mainRun today ts io = Except.ok
      [entityCatch (entityBody io.cust (load_crm_customer_info ts)),
       entityCatch (entityBody io.prod (load_crm_product_info ts)),
       entityCatch (entityBody io.sales (load_crm_sales_details ts)),
       entityCatch (entityBody io.az12 (load_erp_customer_az12 today ts)),
       entityCatch (entityBody io.loc (load_erp_location_a101 ts)),
       entityCatch (entityBody io.pc (load_erp_product_category ts))] := by
  rfl

/-- C9: a full run is a deterministic function of the raw zone and the
processing day; two runs over the same raw zone that differ only in their
stamped `load_timestamp` produce identical cleansed record sets once the
`load_timestamp` column is disregarded. -/
theorem claim9_idempotence_mod_timestamp (today : Date) (t1 t2 : Nat)
    (raw : RawZone) :
    (runAll today t1 raw).clearTs = (runAll today t2 raw).clearTs := by
  simp only [runAll, SilverZone.clearTs, load_crm_customer_info,
    load_crm_product_info, load_crm_sales_details, load_erp_customer_az12,
    load_erp_location_a101, load_erp_product_category, List.map_map]
  rfl

/-- The C2 Product Category row with a missing `id` business key. -/
def c2pcRow : PcRowIn :=
  { id := none, cat := none, subcat := none, maintenance := none }

/-- A C2 Sales Line row with a missing `sls_ord_num` business key. -/
def c2salesRow : SalesRowIn :=
  { sls_ord_num := none, sls_prd_key := none, sls_cust_id := none
    sls_order_dt := "", sls_ship_dt := "", sls_due_dt := ""
    sls_quantity := none, sls_price := none, sls_sales := none }

/-- Two C2 Product rows with the same composite business key (same raw
`prd_key`, same `prd_start_dt`). -/
def c2prodRows : List ProdRowIn :=
  [{ prd_key := some "AA-BB-11", prd_cost := none, prd_line := none
     prd_start_dt := some ⟨2021, 1, 1⟩, prd_end_dt := none },
   { prd_key := some "AA-BB-11", prd_cost := none, prd_line := none
     prd_start_dt := some ⟨2021, 1, 1⟩, prd_end_dt := none }]

/-- C2 counterexample, refuting each violated clause of the claim at a
concrete input: (a) the Product Category pipeline does not discard a record
whose `id` key is missing — lines 458-460 only compute (and discard)
diagnostic counts — so the output keeps the missing-key record; (b) the
Sales Line pipeline applies no key filtering, so an output record can have a
missing business key (`sls_ord_num`); (c) the Product pipeline applies no
deduplication, so two input rows with the same composite business key
(category prefix + product code + start date) both survive and the output
carries a duplicate business key. -/
theorem claim2_counterexample :
    ((load_erp_product_category 0 [c2pcRow]).map (fun r => r.id) = [none] ∧
      ¬ (∀ r ∈ load_erp_product_category 0 [c2pcRow], ¬ r.id = none)) ∧
    ((load_crm_sales_details 0 [c2salesRow]).map (fun r => r.sls_ord_num) =
      [none]) ∧
    ((load_crm_product_info 0 c2prodRows).length = 2 ∧
      ¬ ((load_crm_product_info 0 c2prodRows).map
          (fun o => (o.category_id, o.prd_key, o.prd_start_dt))).Nodup) := by
  refine ⟨by decide, ?_, by decide⟩
  rw [load_crm_sales_details, List.map_map]
  rfl

/-- C2 amended: Customer output records all carry a present business key and
no key occurs twice; the Product, Customer Demographic and Location
pipelines drop missing-key records (their outputs are those of the key-only
filtered inputs); but the Sales Line pipeline applies no key filtering
(every input row yields one output row with its order identifier unchanged,
missing identifiers included), the Product pipeline applies no deduplication
(every key-present input row yields exactly one output row, so duplicate
composite keys survive), and the Product Category pipeline applies no key
filtering at all and retains missing-key records. -/
theorem claim2_amended (ts : Nat) :
    (∀ (rows : List CustRowIn) (r : CustRowOut),
        r ∈ load_crm_customer_info ts rows → r.cust_id.isSome = true) ∧
    (∀ rows : List CustRowIn,
        ((load_crm_customer_info ts rows).map (fun r => r.cust_id)).Nodup) ∧
    (∀ rows : List ProdRowIn,
        load_crm_product_info ts rows =
          load_crm_product_info ts (rows.filter (fun r => r.prd_key.isSome))) ∧
    (∀ (today : Date) (rows : List Az12RowIn),
        load_erp_customer_az12 today ts rows =
          load_erp_customer_az12 today ts (rows.filter (fun r => r.cid.isSome))) ∧
    (∀ rows : List LocRowIn,
        load_erp_location_a101 ts rows =
          load_erp_location_a101 ts (rows.filter (fun r => r.cid.isSome))) ∧
    (∀ rows : List PcRowIn,
        (load_erp_product_category ts rows).map (fun r => r.id) =
          rows.map (fun r => r.id)) ∧
    (∀ rows : List SalesRowIn,
        (load_crm_sales_details ts rows).map (fun r => r.sls_ord_num) =
          rows.map (fun r => r.sls_ord_num)) ∧
    (∀ rows : List ProdRowIn,
        (load_crm_product_info ts rows).length =
          (rows.filter (fun r => r.prd_key.isSome)).length) := by
  refine ⟨?_, ?_, ?_, ?_, ?_, ?_, ?_, ?_⟩
  · intro rows r hr
    obtain ⟨x, hx, hgx⟩ := List.mem_map.mp hr
    have hx2 : x ∈ List.insertionSort custLe (rows.filter (fun r => r.cust_id.isSome)) :=
      dedupFirstAux_subset _ _ _ _ hx
    have hx3 : x ∈ rows.filter (fun r => r.cust_id.isSome) :=
      (List.perm_insertionSort custLe _).subset hx2
    have hx4 := (List.mem_filter.mp hx3).2
    rw [← hgx]
    exact hx4
  · intro rows
    rw [load_crm_customer_info, List.map_map]
    exact dedupFirst_keys_nodup (fun r : CustRowIn => r.cust_id)
      (List.insertionSort custLe (rows.filter (fun r => r.cust_id.isSome)))
  · intro rows
    simp [load_crm_product_info, prodSorted, List.filter_filter]
  · intro today rows
    simp [load_erp_customer_az12, List.filter_filter]
  · intro rows
    simp [load_erp_location_a101, List.filter_filter]
  · intro rows
    rw [load_erp_product_category, List.map_map]
    rfl
  · intro rows
    rw [load_crm_sales_details, List.map_map]
    rfl
  · intro rows
    have hperm := (List.perm_insertionSort prodLe
      (rows.filter (fun r => r.prd_key.isSome))).length_eq
    rw [load_crm_product_info, List.length_map, scdShift_length, prodSorted, hperm]

/-- The C2 customer input with one well-keyed record. -/
def c2custRows : List CustRowIn :=
  [{ cust_id := some "C1", cst_firstname := none, cst_lastname := none
     cst_marital_status := none, cst_gndr := none, cst_create_date := none }]

/-- The silver record `c2custRows` produces. -/
def c2outRow : CustRowOut :=
  { cust_id := some "C1", cst_firstname := none, cst_lastname := none
    cst_marital_status := "Unknown", cst_gndr := "Unknown"
    cst_create_date := none, load_timestamp := 0 }

/-- Witness for C2 amended: key presence of a concrete output record. -/
theorem claim2_amended_witness :
    c2outRow ∈ load_crm_customer_info 0 c2custRows ∧
    c2outRow.cust_id.isSome = true :=
  ⟨by decide, (claim2_amended 0).1 c2custRows c2outRow (by decide)⟩

/-- After line 286 the `sls_sales` column always equals `calc_sales`: the
rewrite condition is exactly "differs from `calc_sales` (or is missing or
non-positive)", so kept values already equal it. -/
theorem salesAfter_eq (r : SalesRowIn) : salesAfter r = some (calcSalesOf r) := by
  unfold salesAfter salesCondOf
  rcases hs : r.sls_sales with _ | s
  · simp
  · simp only [hs]
    by_cases h1 : s ≤ 0
    · simp [h1]
    · by_cases h2 : s = calcSalesOf r
      · simp [h1, h2]
      · simp [h1, h2]

/-- Row-level sales invariant of the reconciliation. -/
theorem reconcile_invariant (r : SalesRowIn) :
    ∃ s p : ℚ, (reconcile r).1 = some s ∧ (reconcile r).2 = some p ∧
      s = r.sls_quantity.getD 0 * |p| := by
  refine ⟨calcSalesOf r, (priceAfter r).getD 0, ?_, rfl, ?_⟩
  · simp [reconcile, salesAfter_eq]
  · rcases hp : r.sls_price with _ | p
    · have hpc : priceCondOf r = true := by simp [priceCondOf, hp]
      have hcs : calcSalesOf r = 0 := by
        simp [calcSalesOf, hp, ratAbs_eq_abs]
      rcases hq : r.sls_quantity with _ | q
      · have hpa : priceAfter r = none := by
          simp [priceAfter, hpc, calcPriceOf, hq]
        simp [hpa, hcs, hq]
      · by_cases hq0 : q = 0
        · have hpa : priceAfter r = none := by
            simp [priceAfter, hpc, calcPriceOf, hq, hq0]
          simp [hpa, hcs, hq, hq0]
        · have hpa : priceAfter r = some 0 := by
            simp [priceAfter, hpc, calcPriceOf, hq, hq0, salesAfter_eq, hcs]
          simp [hpa, hcs, hq]
    · by_cases hple : p ≤ 0
      · have hpc : priceCondOf r = true := by simp [priceCondOf, hp, hple]
        rcases hq : r.sls_quantity with _ | q
        · have hcs : calcSalesOf r = 0 := by simp [calcSalesOf, hq]
          have hpa : priceAfter r = none := by
            simp [priceAfter, hpc, calcPriceOf, hq]
          simp [hpa, hcs, hq]
        · by_cases hq0 : q = 0
          · have hcs : calcSalesOf r = 0 := by simp [calcSalesOf, hq, hq0]
            have hpa : priceAfter r = none := by
              simp [priceAfter, hpc, calcPriceOf, hq, hq0]
            simp [hpa, hcs, hq, hq0]
          · have hcp : calcPriceOf r = some (calcSalesOf r / q) := by
              simp [calcPriceOf, hq, hq0, salesAfter_eq]
            have hcs : calcSalesOf r = q * |p| := by
              simp [calcSalesOf, hq, hp, ratAbs_eq_abs]
            have hpa : priceAfter r = some |p| := by
              rw [priceAfter, if_pos hpc, hcp, hcs, mul_div_cancel_left₀ _ hq0]
            rw [hpa, hcs]
            simp [hq]
      · have hpc : priceCondOf r = false := by simp [priceCondOf, hp, hple]
        have hpa : priceAfter r = some p := by
          rw [priceAfter, if_neg (by simp [hpc]), hp]
        rw [hpa, Option.getD_some]
        simp [calcSalesOf, hp, ratAbs_eq_abs]

/-- C1: for every Sales Line output row, `sls_sales` and `sls_price` are
present (zero-filled as last resort) and `sls_sales` equals the quantity
(zero when missing) times the absolute value of the final `sls_price`. -/
theorem claim1_sales_invariant (ts : Nat) (rows : List SalesRowIn)
    (r : SalesRowOut) (hr : r ∈ load_crm_sales_details ts rows) :
    ∃ s p : ℚ, r.sls_sales = some s ∧ r.sls_price = some p ∧
      s = r.sls_quantity.getD 0 * |p| := by
  obtain ⟨x, _, hgx⟩ := List.mem_map.mp hr
  obtain ⟨s, p, h1, h2, h3⟩ := reconcile_invariant x
  subst hgx
  exact ⟨s, p, h1, h2, h3⟩

/-- The C1 witness input row (the spec's inconsistent-amount example). -/
def c1row : SalesRowIn :=
  { sls_ord_num := none, sls_prd_key := none, sls_cust_id := none
    sls_order_dt := "20230101", sls_ship_dt := "", sls_due_dt := ""
    sls_quantity := some 2, sls_price := some 10, sls_sales := some 15 }

/-- The silver row `[c1row]` produces (amount reconciled to 20, price kept). -/
def c1outRow : SalesRowOut :=
  { sls_ord_num := none, sls_prd_key := none, sls_cust_id := none
    sls_order_dt := some ⟨2023, 1, 1⟩, sls_ship_dt := none, sls_due_dt := none
    sls_quantity := some 2, sls_price := some 10, sls_sales := some 20
    load_timestamp := 0 }

theorem c1row_loads : load_crm_sales_details 0 [c1row] = [c1outRow] := by
  have hq : c1row.sls_quantity = some 2 := rfl
  have hp : c1row.sls_price = some 10 := rfl
  have hs : c1row.sls_sales = some 15 := rfl
  have hcs : calcSalesOf c1row = 20 := by
    rw [calcSalesOf, hq, hp]
    norm_num [ratAbs]
  have hsa : salesAfter c1row = some 20 := by
    simp [salesAfter, salesCondOf, hs, hcs]
  have hpa : priceAfter c1row = some 10 := by
    simp [priceAfter, priceCondOf, hp]
  have hod : clean_yyyymmdd c1row.sls_order_dt = some ⟨2023, 1, 1⟩ := by decide
  have hsd : clean_yyyymmdd c1row.sls_ship_dt = none := by decide
  have hdd : clean_yyyymmdd c1row.sls_due_dt = none := by decide
  rw [load_crm_sales_details, List.map_cons, List.map_nil]
  rw [c1outRow]
  simp only [reconcile, hsa, hpa, hod, hsd, hdd, Option.getD_some]
  rfl

/-- Witness for C1 at a concrete output row. -/
theorem claim1_witness :
    c1outRow ∈ load_crm_sales_details 0 [c1row] ∧
    (∃ s p : ℚ, c1outRow.sls_sales = some s ∧ c1outRow.sls_price = some p ∧
      s = c1outRow.sls_quantity.getD 0 * |p|) :=
  ⟨c1row_loads ▸ List.mem_singleton.mpr rfl,
   claim1_sales_invariant 0 [c1row] c1outRow
     (c1row_loads ▸ List.mem_singleton.mpr rfl)⟩

/-- `drop_duplicates` after the recency sort, restricted to one key value:
only the first sorted row of that key survives. -/
theorem custDeduped_filter (rows : List CustRowIn) (k : Option String) :
    (custDeduped rows).filter (fun r => decide (r.cust_id = k)) =
      ((List.insertionSort custLe (rows.filter (fun r => r.cust_id.isSome))).filter
        (fun r => decide (r.cust_id = k))).take 1 := by
  rw [custDeduped]
  exact dedupFirst_filter (fun r : CustRowIn => r.cust_id) k _

/-- C7: among all input records sharing the business key `k`, the unique
surviving Customer record carries the largest create date: if some record of
key `k` has create date `d` and every record of key `k` has create date at
most `d` (missing dates sort last), the filtered output for key `k` is
exactly one record with create date `d`. -/
theorem claim7_dedup_recency (ts : Nat) (rows : List CustRowIn) (k : String)
    (d : Date)
    (hex : ∃ r ∈ rows, r.cust_id = some k ∧ r.cst_create_date = some d)
    (hmax : ∀ r ∈ rows, r.cust_id = some k →
        odDescB (some d) r.cst_create_date = true) :
    ((load_crm_customer_info ts rows).filter
        (fun r => decide (r.cust_id = some k))).map (fun r => r.cst_create_date) =
      [some d] := by
  obtain ⟨r0, hr0mem, hr0k, hr0d⟩ := hex
  have hr0S : r0 ∈ List.insertionSort custLe (rows.filter (fun r => r.cust_id.isSome)) := by
    refine (List.perm_insertionSort custLe _).mem_iff.mpr ?_
    exact List.mem_filter.mpr ⟨hr0mem, by rw [hr0k]; rfl⟩
  have hload : ((load_crm_customer_info ts rows).filter
      (fun r => decide (r.cust_id = some k))).map (fun r => r.cst_create_date) =
      ((custDeduped rows).filter (fun r => decide (r.cust_id = some k))).map
        (fun r => r.cst_create_date) := by
    rw [load_crm_customer_info, List.filter_map, List.map_map]
    rfl
  rw [hload, custDeduped_filter]
  have hsorted : List.Sorted custLe
      (List.insertionSort custLe (rows.filter (fun r => r.cust_id.isSome))) :=
    List.sorted_insertionSort custLe _
  have hFs : List.Sorted custLe
      ((List.insertionSort custLe (rows.filter (fun r => r.cust_id.isSome))).filter
        (fun r => decide (r.cust_id = some k))) :=
    hsorted.filter _
  have hr0F : r0 ∈ (List.insertionSort custLe
      (rows.filter (fun r => r.cust_id.isSome))).filter
        (fun r => decide (r.cust_id = some k)) :=
    List.mem_filter.mpr ⟨hr0S, by simp [hr0k]⟩
  cases hF : (List.insertionSort custLe
      (rows.filter (fun r => r.cust_id.isSome))).filter
        (fun r => decide (r.cust_id = some k)) with
  | nil =>
    rw [hF] at hr0F
    simp at hr0F
  | cons h t =>
    simp only [List.take_succ_cons, List.take_zero, List.map_cons, List.map_nil]
    have hhFilt : h ∈ (List.insertionSort custLe
        (rows.filter (fun r => r.cust_id.isSome))).filter
          (fun r => decide (r.cust_id = some k)) := by
      rw [hF]
      exact List.mem_cons_self h t
    have hr0F2 : r0 ∈ h :: t := by
      rw [← hF]
      exact hr0F
    have hFs2 : List.Sorted custLe (h :: t) := by
      rw [← hF]
      exact hFs
    have hhk : h.cust_id = some k :=
      of_decide_eq_true (List.mem_filter.mp hhFilt).2
    have hhS : h ∈ List.insertionSort custLe (rows.filter (fun r => r.cust_id.isSome)) :=
      (List.mem_filter.mp hhFilt).1
    have hhrows : h ∈ rows :=
      (List.mem_filter.mp ((List.perm_insertionSort custLe _).subset hhS)).1
    have hhmax := hmax h hhrows hhk
    rcases List.mem_cons.mp hr0F2 with heq | hmem_t
    · rw [← heq, hr0d]
    · have hle : custLe h r0 := (List.sorted_cons.mp hFs2).1 r0 hmem_t
      have hkeys : custKey h = custKey r0 := by
        rw [custKey, custKey, hhk, hr0k]
      have hod : odDescB h.cst_create_date r0.cst_create_date = true := by
        unfold custLe custLeB lexLeB at hle
        rwa [if_pos hkeys] at hle
      rw [hr0d] at hod
      rcases hhd : h.cst_create_date with _ | dh
      · rw [hhd] at hod
        simp [odDescB] at hod
      · rw [hhd] at hod hhmax
        have h1 : Date.le d dh := by simpa [odDescB] using hod
        have h2 : Date.le dh d := by simpa [odDescB] using hhmax
        rw [Date.le_antisymm h2 h1]

/-- The C7 input: two records of key `"C1"` with create dates 2024-01-01 and
2024-06-01. -/
def c7rows : List CustRowIn :=
  [{ cust_id := some "C1", cst_firstname := none, cst_lastname := none
     cst_marital_status := none, cst_gndr := none
     cst_create_date := some ⟨2024, 1, 1⟩ },
   { cust_id := some "C1", cst_firstname := none, cst_lastname := none
     cst_marital_status := none, cst_gndr := none
     cst_create_date := some ⟨2024, 6, 1⟩ }]

/-- Witness for C7: the survivor of `c7rows` has create date 2024-06-01. -/
theorem claim7_witness :
    (∃ r ∈ c7rows, r.cust_id = some "C1" ∧
      r.cst_create_date = some ⟨2024, 6, 1⟩) ∧
    (∀ r ∈ c7rows, r.cust_id = some "C1" →
      odDescB (some ⟨2024, 6, 1⟩) r.cst_create_date = true) ∧
    ((load_crm_customer_info 0 c7rows).filter
        (fun r => decide (r.cust_id = some "C1"))).map (fun r => r.cst_create_date) =
      [some ⟨2024, 6, 1⟩] :=
  ⟨by decide, by decide,
   claim7_dedup_recency 0 c7rows "C1" ⟨2024, 6, 1⟩ (by decide) (by decide)⟩

/-! ### SCD window facts (C5) -/

theorem Date.lt_irrefl (a : Date) : ¬ Date.lt a a :=
  fun h => (Date.lt_iff.mp h).2 rfl

theorem Date.lt_asymm_le {a b : Date} (h1 : Date.lt a b) (h2 : Date.le b a) :
    False :=
  (Date.lt_iff.mp h1).2 (Date.le_antisymm (Date.lt_iff.mp h1).1 h2)

/-- Strictly-later start date (both present). -/
def startLtB (a b : ProdRowIn) : Bool :=
  match a.prd_start_dt, b.prd_start_dt with
  | some da, some db => decide (Date.lt da db)
  | _, _ => false

theorem startLtB_some {a b : ProdRowIn} {da db : Date}
    (ha : a.prd_start_dt = some da) (hb : b.prd_start_dt = some db) :
    startLtB a b = decide (Date.lt da db) := by
  unfold startLtB
  rw [ha, hb]

theorem odAscB_some {a b : Date} :
    odAscB (some a) (some b) = true ↔ Date.le a b := by
  simp [odAscB]

theorem scdShift_get? : ∀ (l : List ProdRowIn) (i : Nat) (r : ProdRowIn),
    l.get? i = some r →
    (scdShift l).get? i = some (r,
      match (l.drop (i + 1)).find? (fun x => x.prd_key = r.prd_key) with
      | none => none
      | some x => x.prd_start_dt.map Date.pred) := by
  intro l
  induction l with
  | nil => intro i r h; simp at h
  | cons a as ih =>
    intro i r h
    cases i with
    | zero =>
      simp only [List.get?_cons_zero, Option.some.injEq] at h
      subst h
      rfl
    | succ n =>
      simp only [List.get?_cons_succ] at h
      rw [scdShift, List.get?_cons_succ, ih n r h, List.drop_succ_cons]

theorem lexLeB_cases (key : α → String) (dcomp : α → α → Bool) {a b : α}
    (h : lexLeB key dcomp a b = true) :
    (key a = key b ∧ dcomp a b = true) ∨
      (¬ key a = key b ∧ strLtB (key a) (key b) = true) := by
  unfold lexLeB at h
  by_cases hk : key a = key b
  · exact Or.inl ⟨hk, by rwa [if_pos hk] at h⟩
  · exact Or.inr ⟨hk, by rwa [if_neg hk] at h⟩

theorem prodKey_eq_iff {x y : ProdRowIn} (hx : x.prd_key.isSome = true)
    (hy : y.prd_key.isSome = true) :
    prodKeyStr x = prodKeyStr y ↔ x.prd_key = y.prd_key := by
  obtain ⟨a, ha⟩ := Option.isSome_iff_exists.mp hx
  obtain ⟨b, hb⟩ := Option.isSome_iff_exists.mp hy
  unfold prodKeyStr
  rw [ha, hb]
  simp

/-- The C5 property over the key-sorted frame `prodSorted rows`: writing
`S i` for the i-th sorted row, (a) a row of a lineage (same raw `prd_key`)
with no strictly-later start date in that lineage gets a missing `end_date`;
(b) a row whose lineage has a strictly-later row `j` of minimal such start
date (its immediate successor by start date) gets
`end_date = start_date(j) - 1 day`. -/
def Claim5Concl (ts : Nat) (rows : List ProdRowIn) : Prop :=
  (load_crm_product_info ts rows).length = (prodSorted rows).length ∧
  ∀ i : Fin (prodSorted rows).length,
    ((∀ j : Fin (prodSorted rows).length,
        ((prodSorted rows).get j).prd_key = ((prodSorted rows).get i).prd_key →
        startLtB ((prodSorted rows).get i) ((prodSorted rows).get j) = false) →
      ((load_crm_product_info ts rows).get? i.val).map (fun o => o.prd_end_dt) =
        some none) ∧
    (∀ j : Fin (prodSorted rows).length,
        ((prodSorted rows).get j).prd_key = ((prodSorted rows).get i).prd_key →
        startLtB ((prodSorted rows).get i) ((prodSorted rows).get j) = true →
        (∀ m : Fin (prodSorted rows).length,
            ((prodSorted rows).get m).prd_key = ((prodSorted rows).get i).prd_key →
            startLtB ((prodSorted rows).get i) ((prodSorted rows).get m) = true →
            odAscB ((prodSorted rows).get j).prd_start_dt
              ((prodSorted rows).get m).prd_start_dt = true) →
        ((load_crm_product_info ts rows).get? i.val).map (fun o => o.prd_end_dt) =
          some (Option.map Date.pred ((prodSorted rows).get j).prd_start_dt))

/-- C5: when every sorted Product row has a present start date and start
dates are distinct within a lineage, the derived SCD window satisfies the
claim: each row's `end_date` is its immediate successor's start date minus
one day, and the last (most recent) row of each lineage has a missing
`end_date`. -/
theorem claim5_scd_window (ts : Nat) (rows : List ProdRowIn)
    (hpres : ∀ r ∈ prodSorted rows, r.prd_start_dt.isSome = true)
    (hdist : ∀ i j : Fin (prodSorted rows).length, ¬ i = j →
        ((prodSorted rows).get i).prd_key = ((prodSorted rows).get j).prd_key →
        ¬ ((prodSorted rows).get i).prd_start_dt =
            ((prodSorted rows).get j).prd_start_dt) :
    Claim5Concl ts rows := by
  have hSsome : ∀ x ∈ prodSorted rows, x.prd_key.isSome = true := by
    intro x hx
    have hx2 : x ∈ rows.filter (fun r => r.prd_key.isSome) :=
      (List.perm_insertionSort prodLe _).subset hx
    exact (List.mem_filter.mp hx2).2
  have hsorted : List.Sorted prodLe (prodSorted rows) :=
    List.sorted_insertionSort prodLe _
  have hpw : ∀ i j : Fin (prodSorted rows).length, i < j →
      prodLe ((prodSorted rows).get i) ((prodSorted rows).get j) :=
    List.pairwise_iff_get.mp hsorted
  have hstart : ∀ i : Fin (prodSorted rows).length,
      ∃ d, ((prodSorted rows).get i).prd_start_dt = some d := by
    intro i
    exact Option.isSome_iff_exists.mp (hpres _ (List.get_mem _ _ _))
  have hle_of_lt_idx : ∀ i j : Fin (prodSorted rows).length, i < j →
      ((prodSorted rows).get j).prd_key = ((prodSorted rows).get i).prd_key →
      odAscB ((prodSorted rows).get i).prd_start_dt
        ((prodSorted rows).get j).prd_start_dt = true := by
    intro i j hij hkey
    have hlex := hpw i j hij
    unfold prodLe prodLeB at hlex
    rcases lexLeB_cases prodKeyStr _ hlex with ⟨_, hd⟩ | ⟨hne, _⟩
    · exact hd
    · exfalso
      apply hne
      unfold prodKeyStr
      rw [hkey]
  have hlt_of_lt_idx : ∀ i j : Fin (prodSorted rows).length, i < j →
      ((prodSorted rows).get j).prd_key = ((prodSorted rows).get i).prd_key →
      startLtB ((prodSorted rows).get i) ((prodSorted rows).get j) = true := by
    intro i j hij hkey
    obtain ⟨di, hdi⟩ := hstart i
    obtain ⟨dj, hdj⟩ := hstart j
    have hle := hle_of_lt_idx i j hij hkey
    rw [hdi, hdj] at hle
    have hled : Date.le di dj := odAscB_some.mp hle
    have hne : ¬ di = dj := by
      intro he
      exact hdist i j (Fin.ne_of_lt hij) hkey.symm (by rw [hdi, hdj, he])
    rw [startLtB_some hdi hdj]
    exact decide_eq_true (Date.lt_iff.mpr ⟨hled, hne⟩)
  have hcontig : ∀ i j k : Fin (prodSorted rows).length, i < j → j < k →
      ((prodSorted rows).get k).prd_key = ((prodSorted rows).get i).prd_key →
      ((prodSorted rows).get j).prd_key = ((prodSorted rows).get i).prd_key := by
    intro i j k hij hjk hki
    have h1 := hpw i j hij
    have h2 := hpw j k hjk
    unfold prodLe prodLeB at h1 h2
    have hkik : prodKeyStr ((prodSorted rows).get i) =
        prodKeyStr ((prodSorted rows).get k) := by
      unfold prodKeyStr
      rw [hki]
    rcases lexLeB_cases prodKeyStr _ h1 with ⟨he1, _⟩ | ⟨hne1, hlt1⟩
    · exact (prodKey_eq_iff (hSsome _ (List.get_mem _ _ _))
        (hSsome _ (List.get_mem _ _ _))).mp he1.symm
    · rcases lexLeB_cases prodKeyStr _ h2 with ⟨he2, _⟩ | ⟨hne2, hlt2⟩
      · exact (prodKey_eq_iff (hSsome _ (List.get_mem _ _ _))
          (hSsome _ (List.get_mem _ _ _))).mp (he2.trans hkik.symm)
      · exfalso
        have hlt2i : strLtB (prodKeyStr ((prodSorted rows).get j))
            (prodKeyStr ((prodSorted rows).get i)) = true := by
          rw [hkik]
          exact hlt2
        have := strLtB_trans hlt1 hlt2i
        rw [strLtB_irrefl] at this
        exact Bool.noConfusion this
  have hgt_of_startLt : ∀ i j : Fin (prodSorted rows).length,
      ((prodSorted rows).get j).prd_key = ((prodSorted rows).get i).prd_key →
      startLtB ((prodSorted rows).get i) ((prodSorted rows).get j) = true →
      i < j := by
    intro i j hkey hslt
    by_contra hnot
    obtain ⟨di, hdi⟩ := hstart i
    obtain ⟨dj, hdj⟩ := hstart j
    rw [startLtB_some hdi hdj] at hslt
    have hltd : Date.lt di dj := of_decide_eq_true hslt
    rcases lt_or_eq_of_le (not_lt.mp hnot) with hji | hji
    · have hle := hle_of_lt_idx j i hji hkey.symm
      rw [hdj, hdi] at hle
      exact Date.lt_asymm_le hltd (odAscB_some.mp hle)
    · have hdij : di = dj := by
        rw [hji] at hdj
        rw [hdi] at hdj
        exact Option.some.inj hdj
      exact Date.lt_irrefl di (hdij ▸ hltd)
  have hmain : ∀ i : Fin (prodSorted rows).length,
      ((load_crm_product_info ts rows).get? i.val).map (fun o => o.prd_end_dt) =
      some (match ((prodSorted rows).drop (i.val + 1)).find?
              (fun x => decide (x.prd_key = ((prodSorted rows).get i).prd_key)) with
            | none => none
            | some x => Option.map Date.pred x.prd_start_dt) := by
    intro i
    have hg : (prodSorted rows).get? i.val = some ((prodSorted rows).get i) :=
      List.get?_eq_get i.isLt
    have h1 := scdShift_get? (prodSorted rows) i.val ((prodSorted rows).get i) hg
    rw [load_crm_product_info, List.get?_map, h1]
    rfl
  refine ⟨by simp [load_crm_product_info, scdShift_length], ?_⟩
  intro i
  constructor
  · intro hA
    have hfind : ((prodSorted rows).drop (i.val + 1)).find?
        (fun x => decide (x.prd_key = ((prodSorted rows).get i).prd_key)) = none := by
      apply List.find?_eq_none.mpr
      intro x hx
      obtain ⟨m, hm⟩ := List.mem_iff_get.mp hx
      have hlen : i.val + 1 + m.val < (prodSorted rows).length := by
        have hmlt := m.isLt
        have hld : ((prodSorted rows).drop (i.val + 1)).length =
            (prodSorted rows).length - (i.val + 1) := List.length_drop _ _
        omega
      have hxg : x = (prodSorted rows).get ⟨i.val + 1 + m.val, hlen⟩ := by
        rw [List.get_drop _ hlen, ← hm]
      intro hpx
      have hxkey : x.prd_key = ((prodSorted rows).get i).prd_key :=
        of_decide_eq_true hpx
      have hkey : ((prodSorted rows).get ⟨i.val + 1 + m.val, hlen⟩).prd_key =
          ((prodSorted rows).get i).prd_key := by
        rw [← hxg]
        exact hxkey
      have hij : i < (⟨i.val + 1 + m.val, hlen⟩ : Fin (prodSorted rows).length) := by
        rw [Fin.lt_def]
        show i.val < i.val + 1 + m.val
        omega
      have hslt := hlt_of_lt_idx i ⟨i.val + 1 + m.val, hlen⟩ hij hkey
      rw [hA ⟨i.val + 1 + m.val, hlen⟩ hkey] at hslt
      exact Bool.noConfusion hslt
    rw [hmain i, hfind]
  · intro j hkj hjlt hmin
    have hij : i < j := hgt_of_startLt i j hkj hjlt
    have hi1lt : i.val + 1 < (prodSorted rows).length := by
      have hjlt2 := j.isLt
      have hij2 := Fin.lt_def.mp hij
      omega
    have hi_lt_i1 : i < (⟨i.val + 1, hi1lt⟩ : Fin (prodSorted rows).length) := by
      rw [Fin.lt_def]
      show i.val < i.val + 1
      omega
    have hi1_le_j : i.val + 1 ≤ j.val := Fin.lt_def.mp hij
    have hkey1 : ((prodSorted rows).get ⟨i.val + 1, hi1lt⟩).prd_key =
        ((prodSorted rows).get i).prd_key := by
      by_cases h1j : (⟨i.val + 1, hi1lt⟩ : Fin (prodSorted rows).length) = j
      · rw [h1j]
        exact hkj
      · have h1j2 : (⟨i.val + 1, hi1lt⟩ : Fin (prodSorted rows).length) < j := by
          rw [Fin.lt_def]
          rcases lt_or_eq_of_le hi1_le_j with h | h
          · exact h
          · exact absurd (Fin.ext h) h1j
        exact hcontig i ⟨i.val + 1, hi1lt⟩ j hi_lt_i1 h1j2 hkj
    obtain ⟨d1, hd1⟩ := hstart ⟨i.val + 1, hi1lt⟩
    obtain ⟨dj, hdj⟩ := hstart j
    have hstart1 : startLtB ((prodSorted rows).get i)
        ((prodSorted rows).get ⟨i.val + 1, hi1lt⟩) = true :=
      hlt_of_lt_idx i ⟨i.val + 1, hi1lt⟩ hi_lt_i1 hkey1
    have hmin1 := hmin ⟨i.val + 1, hi1lt⟩ hkey1 hstart1
    rw [hdj, hd1] at hmin1
    have hle_j_1 : Date.le dj d1 := odAscB_some.mp hmin1
    have hstarteq : ((prodSorted rows).get ⟨i.val + 1, hi1lt⟩).prd_start_dt =
        ((prodSorted rows).get j).prd_start_dt := by
      by_cases h1j : (⟨i.val + 1, hi1lt⟩ : Fin (prodSorted rows).length) = j
      · rw [h1j]
      · have h1j2 : (⟨i.val + 1, hi1lt⟩ : Fin (prodSorted rows).length) < j := by
          rw [Fin.lt_def]
          rcases lt_or_eq_of_le hi1_le_j with h | h
          · exact h
          · exact absurd (Fin.ext h) h1j
        have hkey_j_1 : ((prodSorted rows).get j).prd_key =
            ((prodSorted rows).get ⟨i.val + 1, hi1lt⟩).prd_key :=
          hkj.trans hkey1.symm
        have hle1j := hle_of_lt_idx ⟨i.val + 1, hi1lt⟩ j h1j2 hkey_j_1
        rw [hd1, hdj] at hle1j
        have hle_1_j : Date.le d1 dj := odAscB_some.mp hle1j
        rw [hd1, hdj, Date.le_antisymm hle_1_j hle_j_1]
    have hdropc : (prodSorted rows).drop (i.val + 1) =
        (prodSorted rows).get ⟨i.val + 1, hi1lt⟩ ::
          (prodSorted rows).drop (i.val + 1 + 1) :=
      (List.get_cons_drop _ ⟨i.val + 1, hi1lt⟩).symm
    have hp1 : (fun x => decide (x.prd_key = ((prodSorted rows).get i).prd_key))
        ((prodSorted rows).get ⟨i.val + 1, hi1lt⟩) = true := by
      simp only [hkey1, decide_eq_true_eq]
    have hfind1 : List.find?
        (fun x => decide (x.prd_key = ((prodSorted rows).get i).prd_key))
        ((prodSorted rows).get ⟨i.val + 1, hi1lt⟩ ::
          (prodSorted rows).drop (i.val + 1 + 1)) =
        some ((prodSorted rows).get ⟨i.val + 1, hi1lt⟩) :=
      List.find?_cons_of_pos _ hp1
    rw [hmain i, hdropc, hfind1]
    rw [← hstarteq]

/-- The C5 input: one lineage `AA-BB-11` with start dates 2021-01-01 and
2022-01-01. -/
def c5rows : List ProdRowIn :=
  [{ prd_key := some "AA-BB-11", prd_cost := none, prd_line := none
     prd_start_dt := some ⟨2021, 1, 1⟩, prd_end_dt := none },
   { prd_key := some "AA-BB-11", prd_cost := none, prd_line := none
     prd_start_dt := some ⟨2022, 1, 1⟩, prd_end_dt := none }]

/-- Witness for C5: on `c5rows` the derived end dates are 2021-12-31 and
missing. -/
theorem claim5_witness :
    (∀ r ∈ prodSorted c5rows, r.prd_start_dt.isSome = true) ∧
    (∀ i j : Fin (prodSorted c5rows).length, ¬ i = j →
        ((prodSorted c5rows).get i).prd_key = ((prodSorted c5rows).get j).prd_key →
        ¬ ((prodSorted c5rows).get i).prd_start_dt =
            ((prodSorted c5rows).get j).prd_start_dt) ∧
    Claim5Concl 0 c5rows ∧
    (load_crm_product_info 0 c5rows).map (fun o => o.prd_end_dt) =
      [some ⟨2021, 12, 31⟩, none] :=
  ⟨by decide, by decide, claim5_scd_window 0 c5rows (by decide) (by decide),
   by decide⟩

end SilverLayer
